import Mathlib

/-!
Verification of the weighted mesh-surface sampler embedded in this
repository (the MeshSurfaceSampler class and the particle initialisation
loop of the visual layer). The JavaScript is modelled over the real
numbers: vectors are triples of reals, Float32Array contents are lists of
reals, and the fallible constructor returns an Except value.
-/

namespace Particles

/-- Three-component vector, modelling THREE.Vector3. -/
@[ext]
structure Vec3 where
  x : ℝ
  y : ℝ
  z : ℝ

instance : Zero Vec3 := ⟨⟨0, 0, 0⟩⟩

/-- Componentwise addition (Vector3.add). -/
def Vec3.add (a b : Vec3) : Vec3 := ⟨a.x + b.x, a.y + b.y, a.z + b.z⟩

instance : Add Vec3 := ⟨Vec3.add⟩

/-- Componentwise subtraction (Vector3.subVectors). -/
def Vec3.sub (a b : Vec3) : Vec3 := ⟨a.x - b.x, a.y - b.y, a.z - b.z⟩

instance : Sub Vec3 := ⟨Vec3.sub⟩

/-- Scalar multiple (Vector3.multiplyScalar). -/
def Vec3.smul (r : ℝ) (v : Vec3) : Vec3 := ⟨r * v.x, r * v.y, r * v.z⟩

instance : SMul ℝ Vec3 := ⟨Vec3.smul⟩

/-- Vector3.addScaledVector: t.addScaledVector v s adds s * v to t. -/
def Vec3.addScaledVector (t v : Vec3) (s : ℝ) : Vec3 := t + s • v

/-- Vector3.cross, the cross product. -/
def Vec3.cross (a b : Vec3) : Vec3 :=
  ⟨a.y * b.z - a.z * b.y, a.z * b.x - a.x * b.z, a.x * b.y - a.y * b.x⟩

/-- Vector3.lengthSq. -/
def Vec3.lengthSq (v : Vec3) : ℝ := v.x * v.x + v.y * v.y + v.z * v.z

/-- Vector3.length. -/
noncomputable def Vec3.length (v : Vec3) : ℝ := Real.sqrt v.lengthSq

/-- THREE.Triangle: three corner vectors a, b, c. -/
structure Tri where
  a : Vec3
  b : Vec3
  c : Vec3

/-- Triangle.getArea: half the length of (c - b) x (a - b). -/
noncomputable def Tri.getArea (t : Tri) : ℝ :=
  ((t.c - t.b).cross (t.a - t.b)).length * 0.5

/-- Triangle.getNormal: the normalised cross product (c - b) x (a - b),
or the zero vector when that cross product has zero squared length. -/
noncomputable def Tri.getNormal (t : Tri) : Vec3 :=
  let n := (t.c - t.b).cross (t.a - t.b)
  if 0 < n.lengthSq then (1 / Real.sqrt n.lengthSq) • n else (0 : Vec3)

/-- Fuel-indexed form of the while loop inside
MeshSurfaceSampler.binarySearch.  The JavaScript is
while (low < high) { mid = floor((low + high) / 2);
  if (value >= dist[mid]) low = mid + 1; else high = mid; } return low;
and the fuel argument only bounds the iteration count: whenever
high - low <= fuel the function computes exactly what the loop does. -/
def bsAux {α : Type*} [LinearOrder α] (d : List α) (value : α) :
    ℕ → ℕ → ℕ → ℕ
  | 0, low, _ => low
  | fuel + 1, low, high =>
    if low < high then
      if d.getD ((low + high) / 2) value ≤ value then
        bsAux d value fuel ((low + high) / 2 + 1) high
      else
        bsAux d value fuel low ((low + high) / 2)
    else
      low

/-- MeshSurfaceSampler.binarySearch: low starts at 0 and high starts at
distribution.length - 1. -/
def binarySearch {α : Type*} [LinearOrder α] (d : List α) (value : α) : ℕ :=
  bsAux d value (d.length - 1) 0 (d.length - 1)

theorem bsAux_range {α : Type*} [LinearOrder α] (d : List α) (value : α) :
    ∀ (fuel low high : ℕ), low ≤ high →
      low ≤ bsAux d value fuel low high ∧ bsAux d value fuel low high ≤ high := by
  intro fuel
  induction fuel with
  | zero => intro low high h; simp [bsAux]; omega
  | succ n ih =>
    intro low high h
    rw [bsAux]
    split
    · split
      · have := ih ((low + high) / 2 + 1) high (by omega)
        omega
      · have := ih low ((low + high) / 2) (by omega)
        omega
    · omega

/-- Sorted lists have monotone getD access on in-range indices. -/
theorem sorted_getD_mono {α : Type*} [Preorder α] {d : List α}
    (hs : d.Sorted (· ≤ ·)) {j k : ℕ} (hjk : j ≤ k) (hk : k < d.length) (x : α) :
    d.getD j x ≤ d.getD k x := by
  rcases eq_or_lt_of_le hjk with rfl | h
  · exact le_refl _
  · have hj : j < d.length := lt_trans h hk
    rw [List.getD_eq_getElem d x hj, List.getD_eq_getElem d x hk]
    exact hs.rel_get_of_lt h

/-- If every entry of the list is at most the query value then the loop
always moves low upward and ends at high. -/
theorem bsAux_all_le {α : Type*} [LinearOrder α] (d : List α) (value : α)
    (hall : ∀ j, d.getD j value ≤ value) :
    ∀ (fuel low high : ℕ), high - low ≤ fuel → low ≤ high →
      bsAux d value fuel low high = high := by
  intro fuel
  induction fuel with
  | zero => intro low high hf hlh; rw [bsAux]; omega
  | succ n ih =>
    intro low high hf hlh
    rw [bsAux]
    split
    · rw [if_pos (hall _)]
      exact ih ((low + high) / 2 + 1) high (by omega) (by omega)
    · omega

/-- Loop invariant for binarySearch: every index below the result holds a
value at most the query, and the result either carries a value strictly
above the query or is the last index. -/
theorem bsAux_spec {α : Type*} [LinearOrder α] (d : List α) (value : α)
    (hs : d.Sorted (· ≤ ·)) :
    ∀ (fuel low high : ℕ), high - low ≤ fuel → low ≤ high → high < d.length →
      (∀ j < low, d.getD j value ≤ value) →
      (high = d.length - 1 ∨ value < d.getD high value) →
      (∀ j < bsAux d value fuel low high, d.getD j value ≤ value) ∧
      (bsAux d value fuel low high = d.length - 1 ∨
        value < d.getD (bsAux d value fuel low high) value) := by
  intro fuel
  induction fuel with
  | zero =>
    intro low high hf hlh hh hlow hhigh
    have : low = high := by omega
    subst this
    rw [bsAux]
    exact ⟨hlow, hhigh⟩
  | succ n ih =>
    intro low high hf hlh hh hlow hhigh
    rw [bsAux]
    split
    next hlt =>
      split
      next hmid =>
        refine ih ((low + high) / 2 + 1) high (by omega) (by omega) hh ?_ hhigh
        intro j hj
        rcases lt_or_le j low with hjl | hjl
        · exact hlow j hjl
        · exact le_trans (sorted_getD_mono hs (by omega) (by omega) value) hmid
      next hmid =>
        refine ih low ((low + high) / 2) (by omega) (by omega) (by omega) hlow ?_
        exact Or.inr (lt_of_not_le hmid)
    next hlt =>
      have : low = high := by omega
      subst this
      exact ⟨hlow, hhigh⟩

/-- Output record of one sample call: the caller-supplied targetPosition,
targetNormal and (when a color attribute exists) targetColor after the
call. -/
structure Sample where
  position : Vec3
  normal : Vec3
  color : Option Vec3

/-- State of a MeshSurfaceSampler instance together with the module-level
scratch globals it writes through (the shared Triangle objects called
underscore-face and underscore-color, and the color interpolant vector). -/
structure SamplerState where
  positionAttribute : List Vec3
  colorAttribute : Option (List Vec3)
  weightAttribute : Option (List ℝ)
  distribution : List ℝ
  scratchFace : Tri
  scratchColor : Tri
  scratchColorInterpolant : Vec3

/-- Input geometry handed to the constructor: a BufferGeometry with a
position attribute of a given itemSize, an optional index, and an
optional color attribute. -/
structure BufferGeometry where
  isBufferGeometry : Bool
  itemSize : ℕ
  index : Option (List ℕ)
  position : List Vec3
  color : Option (List Vec3)

/-- BufferGeometry.toNonIndexed: expand every attribute along the index. -/
def BufferGeometry.toNonIndexed (g : BufferGeometry) : BufferGeometry :=
  match g.index with
  | none => g
  | some idx =>
    { g with
      index := none
      position := idx.map (fun i => g.position.getD i 0)
      color := g.color.map (fun cs => idx.map (fun i => cs.getD i 0)) }

/-- The sampler state a successful constructor call produces: attributes
read off the geometry, weightAttribute and distribution still null, and
the module scratch globals in their initial zero state. -/
def initialSampler (g : BufferGeometry) : SamplerState :=
  { positionAttribute := g.position
    colorAttribute := g.color
    weightAttribute := none
    distribution := []
    scratchFace := ⟨0, 0, 0⟩
    scratchColor := ⟨0, 0, 0⟩
    scratchColorInterpolant := 0 }

/-- MeshSurfaceSampler constructor: throws unless the geometry is a
BufferGeometry whose position attribute has itemSize 3; an indexed
geometry is converted with toNonIndexed (after a console warning) rather
than rejected. -/
def construct (g : BufferGeometry) : Except String SamplerState :=
  if !g.isBufferGeometry || g.itemSize != 3 then
    Except.error "MeshSurfaceSampler: Requires BufferGeometry triangle mesh."
  else
    Except.ok (initialSampler (match g.index with
      | some _ => g.toNonIndexed
      | none => g))

/-- MeshSurfaceSampler.setWeightAttribute, with the geometry attribute
lookup already resolved to the attribute data (or none). -/
def setWeightAttribute (s : SamplerState) (attr : Option (List ℝ)) : SamplerState :=
  { s with weightAttribute := attr }

/-- Number of triangles: positionAttribute.count / 3. -/
def triCount (s : SamplerState) : ℕ := s.positionAttribute.length / 3

/-- The triangle read into the scratch face for face i: vertices
i*3, i*3+1, i*3+2 of the position attribute. -/
def faceVerts (s : SamplerState) (i : ℕ) : Tri :=
  ⟨s.positionAttribute.getD (i * 3) 0,
   s.positionAttribute.getD (i * 3 + 1) 0,
   s.positionAttribute.getD (i * 3 + 2) 0⟩

/-- Face weight of triangle i in build(): 1, or the sum of the three
vertex weights when a weight attribute is set, multiplied by the face
area. -/
noncomputable def faceWeightAt (s : SamplerState) (i : ℕ) : ℝ :=
  (match s.weightAttribute with
   | some w => w.getD (i * 3) 0 + w.getD (i * 3 + 1) 0 + w.getD (i * 3 + 2) 0
   | none => 1) * (faceVerts s i).getArea

/-- The faceWeights array of build(). -/
noncomputable def faceWeights (s : SamplerState) : List ℝ :=
  (List.range (triCount s)).map (faceWeightAt s)

/-- Running-total pass of build(): cumulativeWeight starts at acc and
entry i holds the running total after adding weight i. -/
def cumsumGo (acc : ℝ) : List ℝ → List ℝ
  | [] => []
  | w :: ws => (acc + w) :: cumsumGo (acc + w) ws

/-- The cumulative distribution: running totals starting from 0. -/
def cumsum (l : List ℝ) : List ℝ := cumsumGo 0 l

/-- MeshSurfaceSampler.build: fill faceWeights, then store the running
totals as the distribution.  The scratch face is left holding the last
triangle the loop visited. -/
noncomputable def build (s : SamplerState) : SamplerState :=
  { s with
    distribution := cumsum (faceWeights s)
    scratchFace := if triCount s = 0 then s.scratchFace else faceVerts s (triCount s - 1) }

@[simp]
theorem build_positionAttribute (s : SamplerState) :
    (build s).positionAttribute = s.positionAttribute := rfl

@[simp]
theorem build_colorAttribute (s : SamplerState) :
    (build s).colorAttribute = s.colorAttribute := rfl

@[simp]
theorem build_weightAttribute (s : SamplerState) :
    (build s).weightAttribute = s.weightAttribute := rfl

/-- The fold-back at the start of sampleFace:
if (u + v > 1) { u = 1 - u; v = 1 - v }. -/
noncomputable def foldUV (u v : ℝ) : ℝ × ℝ :=
  if 1 < u + v then (1 - u, 1 - v) else (u, v)

/-- MeshSurfaceSampler.sampleFace with the two Math.random() draws made
explicit as u0 and v0.  Returns the updated state (scratch globals
written) and the sample written into the caller's targets. -/
noncomputable def sampleFace (s : SamplerState) (faceIndex : ℕ) (u0 v0 : ℝ) :
    SamplerState × Sample :=
  let u := (foldUV u0 v0).1
  let v := (foldUV u0 v0).2
  let t := faceVerts s faceIndex
  let targetPosition :=
    (((0 : Vec3).addScaledVector t.a u).addScaledVector t.b v).addScaledVector
      t.c (1 - (u + v))
  let targetNormal := t.getNormal
  match s.colorAttribute with
  | some cs =>
    let ct : Tri :=
      ⟨cs.getD (faceIndex * 3) 0, cs.getD (faceIndex * 3 + 1) 0,
       cs.getD (faceIndex * 3 + 2) 0⟩
    let interp :=
      (((0 : Vec3).addScaledVector ct.a u).addScaledVector ct.b v).addScaledVector
        ct.c (1 - (u + v))
    ({ s with scratchFace := t, scratchColor := ct, scratchColorInterpolant := interp },
     { position := targetPosition, normal := targetNormal, color := some interp })
  | none =>
    ({ s with scratchFace := t },
     { position := targetPosition, normal := targetNormal, color := none })

/-- MeshSurfaceSampler.sample with the three Math.random() draws made
explicit: r scales the cumulative total for face selection, u0 and v0 are
the draws of sampleFace. -/
noncomputable def sample (s : SamplerState) (r u0 v0 : ℝ) : SamplerState × Sample :=
  let cumulativeTotal := s.distribution.getD (s.distribution.length - 1) 0
  sampleFace s (binarySearch s.distribution (r * cumulativeTotal)) u0 v0

/-- A sequence of sample calls, each consuming one triple of draws. -/
noncomputable def sampleMany (s : SamplerState) :
    List (ℝ × ℝ × ℝ) → SamplerState × List Sample
  | [] => (s, [])
  | d :: ds =>
    let p := sample s d.1 d.2.1 d.2.2
    let q := sampleMany p.1 ds
    (q.1, p.2 :: q.2)

@[simp]
theorem Vec3.add_x (a b : Vec3) : (a + b).x = a.x + b.x := rfl

@[simp]
theorem Vec3.add_y (a b : Vec3) : (a + b).y = a.y + b.y := rfl

@[simp]
theorem Vec3.add_z (a b : Vec3) : (a + b).z = a.z + b.z := rfl

@[simp]
theorem Vec3.sub_x (a b : Vec3) : (a - b).x = a.x - b.x := rfl

@[simp]
theorem Vec3.sub_y (a b : Vec3) : (a - b).y = a.y - b.y := rfl

@[simp]
theorem Vec3.sub_z (a b : Vec3) : (a - b).z = a.z - b.z := rfl

@[simp]
theorem Vec3.smul_x (r : ℝ) (v : Vec3) : (r • v).x = r * v.x := rfl

@[simp]
theorem Vec3.smul_y (r : ℝ) (v : Vec3) : (r • v).y = r * v.y := rfl

@[simp]
theorem Vec3.smul_z (r : ℝ) (v : Vec3) : (r • v).z = r * v.z := rfl

@[simp]
theorem Vec3.zero_x : (0 : Vec3).x = 0 := rfl

@[simp]
theorem Vec3.zero_y : (0 : Vec3).y = 0 := rfl

@[simp]
theorem Vec3.zero_z : (0 : Vec3).z = 0 := rfl

/-- After the fold-back, draws from the unit square land in the closed
barycentric triangle: both coordinates are nonnegative with sum at most
one. -/
theorem foldUV_bounds {u v : ℝ} (hu0 : 0 ≤ u) (hu1 : u < 1) (hv0 : 0 ≤ v) (hv1 : v < 1) :
    0 ≤ (foldUV u v).1 ∧ 0 ≤ (foldUV u v).2 ∧ (foldUV u v).1 + (foldUV u v).2 ≤ 1 := by
  unfold foldUV
  split
  next h =>
    refine ⟨show (0:ℝ) ≤ 1 - u by linarith, show (0:ℝ) ≤ 1 - v by linarith,
      show (1 - u) + (1 - v) ≤ 1 by linarith⟩
  next h => exact ⟨hu0, hv0, not_lt.mp h⟩

/-- The position sampleFace writes is the barycentric combination of the
face's corners with the folded coordinates. -/
theorem sampleFace_position (s : SamplerState) (i : ℕ) (u0 v0 : ℝ) :
    (sampleFace s i u0 v0).2.position =
      (foldUV u0 v0).1 • (faceVerts s i).a + (foldUV u0 v0).2 • (faceVerts s i).b +
        (1 - ((foldUV u0 v0).1 + (foldUV u0 v0).2)) • (faceVerts s i).c := by
  cases hc : s.colorAttribute with
  | none => ext <;> simp [sampleFace, hc, Vec3.addScaledVector]
  | some cs => ext <;> simp [sampleFace, hc, Vec3.addScaledVector]

/-- One sample call copies every sampler field except the scratch
globals. -/
theorem sample_preserves (s : SamplerState) (r u0 v0 : ℝ) :
    (sample s r u0 v0).1.positionAttribute = s.positionAttribute ∧
    (sample s r u0 v0).1.colorAttribute = s.colorAttribute ∧
    (sample s r u0 v0).1.weightAttribute = s.weightAttribute ∧
    (sample s r u0 v0).1.distribution = s.distribution := by
  cases hc : s.colorAttribute <;> simp [sample, sampleFace, hc]

/-- A whole sequence of sample calls preserves the mesh attributes and
the distribution. -/
theorem sampleMany_preserves (ds : List (ℝ × ℝ × ℝ)) :
    ∀ s : SamplerState,
      (sampleMany s ds).1.positionAttribute = s.positionAttribute ∧
      (sampleMany s ds).1.colorAttribute = s.colorAttribute ∧
      (sampleMany s ds).1.weightAttribute = s.weightAttribute ∧
      (sampleMany s ds).1.distribution = s.distribution := by
  induction ds with
  | nil => intro s; simp [sampleMany]
  | cons d ds ih =>
    intro s
    have h1 := sample_preserves s d.1 d.2.1 d.2.2
    have h2 := ih (sample s d.1 d.2.1 d.2.2).1
    simp only [sampleMany]
    exact ⟨h2.1.trans h1.1, h2.2.1.trans h1.2.1, h2.2.2.1.trans h1.2.2.1,
      h2.2.2.2.trans h1.2.2.2⟩

theorem cumsumGo_length (l : List ℝ) : ∀ acc : ℝ, (cumsumGo acc l).length = l.length := by
  induction l with
  | nil => intro acc; rfl
  | cons w ws ih => intro acc; simp [cumsumGo, ih]

/-- Entry i of the running-total pass equals the start value plus the sum
of the first i + 1 weights. -/
theorem cumsumGo_getD (l : List ℝ) :
    ∀ (acc : ℝ) (i : ℕ), i < l.length →
      (cumsumGo acc l).getD i 0 = acc + ∑ j ∈ Finset.range (i + 1), l.getD j 0 := by
  induction l with
  | nil => intro acc i hi; simp at hi
  | cons w ws ih =>
    intro acc i hi
    cases i with
    | zero => simp [cumsumGo, List.getD_cons_zero, Finset.sum_range_one]
    | succ i =>
      have hi' : i < ws.length := by simpa using hi
      simp only [cumsumGo, List.getD_cons_succ]
      rw [ih (acc + w) i hi']
      conv_rhs => rw [Finset.sum_range_succ']
      simp only [List.getD_cons_succ, List.getD_cons_zero]
      ring

theorem faceWeights_length (s : SamplerState) : (faceWeights s).length = triCount s := by
  simp [faceWeights]

theorem faceWeights_getD (s : SamplerState) (i : ℕ) (hi : i < triCount s) :
    (faceWeights s).getD i 0 = faceWeightAt s i := by
  unfold faceWeights
  rw [List.getD_eq_getElem _ _ (by simpa using hi)]
  simp

/-- The distribution build() stores, exposed as a prefix-sum formula. -/
theorem build_distribution_getD (s : SamplerState) (i : ℕ) (hi : i < triCount s) :
    (build s).distribution.getD i 0 = ∑ j ∈ Finset.range (i + 1), faceWeightAt s j := by
  show (cumsum (faceWeights s)).getD i 0 = _
  rw [cumsum, cumsumGo_getD _ 0 i (by rw [faceWeights_length]; exact hi), zero_add]
  refine Finset.sum_congr rfl fun j hj => ?_
  exact faceWeights_getD s j (by have := Finset.mem_range.mp hj; omega)

theorem build_distribution_length (s : SamplerState) :
    (build s).distribution.length = triCount s := by
  show (cumsum (faceWeights s)).length = _
  rw [cumsum, cumsumGo_length, faceWeights_length]

theorem getArea_nonneg (t : Tri) : 0 ≤ t.getArea := by
  unfold Tri.getArea Vec3.length
  have h := Real.sqrt_nonneg ((t.c - t.b).cross (t.a - t.b)).lengthSq
  nlinarith

/-- Face weights are nonnegative whenever the optional per-vertex weights
are nonnegative. -/
theorem faceWeightAt_nonneg (s : SamplerState)
    (hw : ∀ w, s.weightAttribute = some w → ∀ j, 0 ≤ w.getD j 0) (i : ℕ) :
    0 ≤ faceWeightAt s i := by
  unfold faceWeightAt
  apply mul_nonneg _ (getArea_nonneg _)
  cases hwa : s.weightAttribute with
  | none => norm_num
  | some w =>
    have h := hw w hwa
    exact add_nonneg (add_nonneg (h _) (h _)) (h _)

/-- Total weighted area of the mesh: sum of all face weights. -/
noncomputable def totalWeightedArea (s : SamplerState) : ℝ :=
  ∑ j ∈ Finset.range (triCount s), faceWeightAt s j

/-- particleCount constant of the visual layer. -/
def particleCount : ℕ := 5000

/-- maxAttempts constant of the visual layer: particleCount * 5. -/
def maxAttempts : ℕ := particleCount * 5

/-- frontNormalThreshold constant of the visual layer. -/
noncomputable def frontNormalThreshold : ℝ := 0.1

/-- scaleFactor constant of the visual layer. -/
noncomputable def scaleFactor : ℝ := 2.0

/-- Body of the accept test: when the sampled normal's z exceeds the
threshold, push the jittered position components, else leave the target
list unchanged.  d carries the three offset draws in its last three
components. -/
noncomputable def loopPush (d : ℝ × ℝ × ℝ × ℝ × ℝ × ℝ) (p : Sample)
    (targetPositions : List ℝ) : List ℝ :=
  if frontNormalThreshold < p.normal.z then
    targetPositions ++
      [p.position.x + (d.2.2.2.1 - 0.5) * 0.005 * scaleFactor,
       p.position.y + (d.2.2.2.2.1 - 0.5) * 0.005 * scaleFactor,
       p.position.z + (d.2.2.2.2.2 - 0.5) * 0.005 * scaleFactor]
  else
    targetPositions

/-- The accept/reject sampling loop of init():
while (targetPositions.length / 3 < particleCount && attempts < maxAttempts)
\x7b attempts++; sampler.sample(...); if (normal.z > threshold) push; \x7d
rand supplies the six Math.random() draws of one iteration. -/
noncomputable def samplingLoop (rand : ℕ → ℝ × ℝ × ℝ × ℝ × ℝ × ℝ)
    (s : SamplerState) (targetPositions : List ℝ) (attempts : ℕ) :
    SamplerState × List ℝ × ℕ :=
  if h : targetPositions.length / 3 < particleCount ∧ attempts < maxAttempts then
    samplingLoop rand
      (sample s (rand attempts).1 (rand attempts).2.1 (rand attempts).2.2.1).1
      (loopPush (rand attempts)
        (sample s (rand attempts).1 (rand attempts).2.1 (rand attempts).2.2.1).2
        targetPositions)
      (attempts + 1)
  else
    (s, targetPositions, attempts)
termination_by maxAttempts - attempts
decreasing_by omega

/-- The warning test after the loop: fewer accepted samples than
requested. -/
def warnFewer (targetPositions : List ℝ) : Bool :=
  decide (targetPositions.length / 3 < particleCount)

/-- Concrete mesh with one right triangle, used only to instantiate
proved statements. -/
noncomputable def sampleStateA : SamplerState :=
  { positionAttribute := [⟨0, 0, 0⟩, ⟨1, 0, 0⟩, ⟨0, 1, 0⟩]
    colorAttribute := none
    weightAttribute := none
    distribution := []
    scratchFace := ⟨0, 0, 0⟩
    scratchColor := ⟨0, 0, 0⟩
    scratchColorInterpolant := 0 }

/-- Claim C1: for every triangle of the mesh and draws u, v in [0,1),
sampleFace applies the fold-back (if u + v > 1 then u := 1-u, v := 1-v)
and writes the position u'*A + v'*B + (1-(u'+v'))*C with the folded
coordinates; after the fold-back they satisfy u' >= 0, v' >= 0 and
u' + v' <= 1, so the position is a convex combination of the triangle's
three vertices. -/
theorem claim_C1_sampleFace_convex (s : SamplerState) (i : ℕ) (u v : ℝ)
    (hu0 : 0 ≤ u) (hu1 : u < 1) (hv0 : 0 ≤ v) (hv1 : v < 1) :
    (sampleFace s i u v).2.position =
      (foldUV u v).1 • (faceVerts s i).a + (foldUV u v).2 • (faceVerts s i).b +
        (1 - ((foldUV u v).1 + (foldUV u v).2)) • (faceVerts s i).c ∧
    0 ≤ (foldUV u v).1 ∧ 0 ≤ (foldUV u v).2 ∧
    (foldUV u v).1 + (foldUV u v).2 ≤ 1 ∧
    ∃ α β γ : ℝ, 0 ≤ α ∧ 0 ≤ β ∧ 0 ≤ γ ∧ α + β + γ = 1 ∧
      (sampleFace s i u v).2.position =
        α • (faceVerts s i).a + β • (faceVerts s i).b + γ • (faceVerts s i).c := by
  obtain ⟨h1, h2, h3⟩ := foldUV_bounds hu0 hu1 hv0 hv1
  exact ⟨sampleFace_position s i u v, h1, h2, h3,
    (foldUV u v).1, (foldUV u v).2, 1 - ((foldUV u v).1 + (foldUV u v).2),
    h1, h2, by linarith, by ring, sampleFace_position s i u v⟩

theorem claim_C1_witness :
    ((0:ℝ) ≤ 0 ∧ (0:ℝ) < 1) ∧
    ((sampleFace sampleStateA 0 0 0).2.position =
        (foldUV 0 0).1 • (faceVerts sampleStateA 0).a +
          (foldUV 0 0).2 • (faceVerts sampleStateA 0).b +
          (1 - ((foldUV 0 0).1 + (foldUV 0 0).2)) • (faceVerts sampleStateA 0).c ∧
      0 ≤ (foldUV (0:ℝ) 0).1 ∧ 0 ≤ (foldUV (0:ℝ) 0).2 ∧
      (foldUV (0:ℝ) 0).1 + (foldUV (0:ℝ) 0).2 ≤ 1 ∧
      ∃ α β γ : ℝ, 0 ≤ α ∧ 0 ≤ β ∧ 0 ≤ γ ∧ α + β + γ = 1 ∧
        (sampleFace sampleStateA 0 0 0).2.position =
          α • (faceVerts sampleStateA 0).a + β • (faceVerts sampleStateA 0).b +
            γ • (faceVerts sampleStateA 0).c) :=
  ⟨⟨le_refl 0, zero_lt_one⟩,
   claim_C1_sampleFace_convex sampleStateA 0 0 0 (le_refl 0) zero_lt_one (le_refl 0)
     zero_lt_one⟩

/-- Spec-side selection rule, written from the spec's words: i is the
smallest index whose cumulative entry is at least r. -/
def smallestGeIdx {α : Type*} [LinearOrder α] (d : List α) (r : α) (i : ℕ) : Prop :=
  r ≤ d.getD i r ∧ ∀ j < i, d.getD j r < r

/-- Claim C2 (counterexample): on the built-shape distribution
[1,3,6,10] (nonempty, nondecreasing) and the draw r = 3 (inside
[0, totalWeight)), binarySearch returns 2, but the smallest index with
cumulative[i] >= 3 is 1: the code advances past entries equal to the
query value. -/
theorem claim_C2_counterexample :
    binarySearch [(1 : ℝ), 3, 6, 10] 3 = 2 ∧
    ¬ smallestGeIdx [(1 : ℝ), 3, 6, 10] 3 (binarySearch [(1 : ℝ), 3, 6, 10] 3) ∧
    smallestGeIdx [(1 : ℝ), 3, 6, 10] 3 1 ∧
    List.Sorted (· ≤ ·) [(1 : ℝ), 3, 6, 10] ∧
    (0 : ℝ) ≤ 3 ∧ (3 : ℝ) < 10 := by
  have h2 : binarySearch [(1 : ℝ), 3, 6, 10] 3 = 2 := by
    norm_num [binarySearch, bsAux, List.getD]
  refine ⟨h2, ?_, ?_, ?_, by norm_num, by norm_num⟩
  · rw [h2]
    intro h
    have := h.2 1 (by norm_num)
    norm_num [List.getD] at this
  · refine ⟨by norm_num [List.getD], ?_⟩
    intro j hj
    interval_cases j
    norm_num [List.getD]
  · norm_num [List.sorted_cons]

/-- Claim C2 (amended): for every built-shape distribution (nonempty and
nondecreasing) and every draw r below the total weight, binarySearch
returns the smallest index i with cumulative[i] strictly greater than r
(every earlier entry is at most r), and that index is in range. -/
theorem claim_C2_amended {α : Type*} [LinearOrder α] (d : List α) (r : α)
    (hne : d ≠ []) (hs : d.Sorted (· ≤ ·))
    (hr : r < d.getD (d.length - 1) r) :
    binarySearch d r < d.length ∧
    r < d.getD (binarySearch d r) r ∧
    ∀ j < binarySearch d r, d.getD j r ≤ r := by
  have hlen : 1 ≤ d.length := by
    cases d
    · simp at hne
    · simp
  have hrange := bsAux_range d r (d.length - 1) 0 (d.length - 1) (Nat.zero_le _)
  have hspec := bsAux_spec d r hs (d.length - 1) 0 (d.length - 1) (by omega)
    (Nat.zero_le _) (by omega) (fun j hj => absurd hj (Nat.not_lt_zero j)) (Or.inl rfl)
  unfold binarySearch at *
  refine ⟨by omega, ?_, hspec.1⟩
  rcases hspec.2 with heq | hlt
  · rw [heq]; exact hr
  · exact hlt

theorem claim_C2_amended_witness :
    ([(1 : ℚ), 3, 6, 10] ≠ [] ∧ List.Sorted (· ≤ ·) [(1 : ℚ), 3, 6, 10] ∧
      (0 : ℚ) < [(1 : ℚ), 3, 6, 10].getD ([(1 : ℚ), 3, 6, 10].length - 1) 0) ∧
    (binarySearch [(1 : ℚ), 3, 6, 10] 0 < [(1 : ℚ), 3, 6, 10].length ∧
      (0 : ℚ) < [(1 : ℚ), 3, 6, 10].getD (binarySearch [(1 : ℚ), 3, 6, 10] 0) 0 ∧
      ∀ j < binarySearch [(1 : ℚ), 3, 6, 10] 0, [(1 : ℚ), 3, 6, 10].getD j 0 ≤ 0) :=
  ⟨⟨by decide, by decide, by decide⟩,
   claim_C2_amended [(1 : ℚ), 3, 6, 10] 0 (by decide) (by decide) (by decide)⟩

/-- Claim C8: for the cumulative sequence [1,3,6,10] and query value 4 the
selected index is 2 (zero-based): cumulative[2] = 6 >= 4 and
cumulative[1] = 3 < 4. -/
theorem claim_C8_binarySearch_example :
    binarySearch [(1 : ℝ), 3, 6, 10] 4 = 2 ∧
    (4 : ℝ) ≤ [(1 : ℝ), 3, 6, 10].getD 2 0 ∧
    [(1 : ℝ), 3, 6, 10].getD 1 0 < 4 := by
  refine ⟨by norm_num [binarySearch, bsAux, List.getD], ?_, ?_⟩ <;>
    norm_num [List.getD]

/-- Claim C10: binarySearch is total and in-bounds: on every nonempty
distribution it returns an index below the length for every query value,
and on a nondecreasing distribution any query at least the last entry
yields the last index. -/
theorem claim_C10_binarySearch_total {α : Type*} [LinearOrder α]
    (d : List α) (value : α) (hne : d ≠ []) :
    binarySearch d value < d.length ∧
    (d.Sorted (· ≤ ·) → d.getD (d.length - 1) value ≤ value →
      binarySearch d value = d.length - 1) := by
  have hlen : 1 ≤ d.length := by
    cases d
    · simp at hne
    · simp
  have hrange := bsAux_range d value (d.length - 1) 0 (d.length - 1) (Nat.zero_le _)
  constructor
  · unfold binarySearch
    omega
  · intro hs hlast
    unfold binarySearch
    refine bsAux_all_le d value ?_ (d.length - 1) 0 (d.length - 1) (by omega) (Nat.zero_le _)
    intro j
    rcases lt_or_le j d.length with hj | hj
    · exact le_trans (sorted_getD_mono hs (by omega) (by omega) value) hlast
    · rw [List.getD_eq_default _ _ hj]

theorem claim_C10_witness :
    ([(1 : ℚ), 3, 6, 10] ≠ []) ∧
    binarySearch [(1 : ℚ), 3, 6, 10] 11 < [(1 : ℚ), 3, 6, 10].length ∧
    binarySearch [(1 : ℚ), 3, 6, 10] 11 = [(1 : ℚ), 3, 6, 10].length - 1 :=
  ⟨by decide, (claim_C10_binarySearch_total [(1 : ℚ), 3, 6, 10] 11 (by decide)).1,
   (claim_C10_binarySearch_total [(1 : ℚ), 3, 6, 10] 11 (by decide)).2 (by decide) (by decide)⟩

/-- Claim C3: build computes for each triangle the face weight — the
triangle's area times the sum of its three vertex weights when a weight
attribute is set and times 1 (the default) otherwise — and stores the
cumulative prefix-sum sequence of the face weights, one entry per
triangle, entry i being the sum of face weights 0 through i. -/
theorem claim_C3_build_prefix_sums (s : SamplerState) (i : ℕ) (hi : i < triCount s) :
    (build s).distribution.length = triCount s ∧
    faceWeightAt s i =
      (match s.weightAttribute with
       | some w => w.getD (i * 3) 0 + w.getD (i * 3 + 1) 0 + w.getD (i * 3 + 2) 0
       | none => 1) * (faceVerts s i).getArea ∧
    (build s).distribution.getD i 0 = ∑ j ∈ Finset.range (i + 1), faceWeightAt s j :=
  ⟨build_distribution_length s, rfl, build_distribution_getD s i hi⟩

theorem claim_C3_witness :
    0 < triCount sampleStateA ∧
    ((build sampleStateA).distribution.length = triCount sampleStateA ∧
     faceWeightAt sampleStateA 0 = 1 * (faceVerts sampleStateA 0).getArea ∧
     (build sampleStateA).distribution.getD 0 0 =
       ∑ j ∈ Finset.range (0 + 1), faceWeightAt sampleStateA j) :=
  ⟨by decide, claim_C3_build_prefix_sums sampleStateA 0 (by decide)⟩

/-- Claim C6: with nonnegative per-vertex weights (when a weight
attribute is set at all) the built cumulative distribution is
nondecreasing, and its last entry equals the total weighted area of the
mesh. -/
theorem claim_C6_distribution_monotone (s : SamplerState)
    (hw : ∀ w, s.weightAttribute = some w → ∀ j, 0 ≤ w.getD j 0) :
    (∀ i, i + 1 < (build s).distribution.length →
      (build s).distribution.getD i 0 ≤ (build s).distribution.getD (i + 1) 0) ∧
    (build s).distribution.getD ((build s).distribution.length - 1) 0 =
      totalWeightedArea s := by
  constructor
  · intro i hi
    rw [build_distribution_length] at hi
    rw [build_distribution_getD s i (by omega), build_distribution_getD s (i + 1) hi]
    have hle := faceWeightAt_nonneg s hw (i + 1)
    conv_rhs => rw [Finset.sum_range_succ]
    linarith
  · rw [build_distribution_length]
    rcases Nat.eq_zero_or_pos (triCount s) with h0 | hpos
    · unfold totalWeightedArea
      have hempty : (build s).distribution = [] := by
        have hl := build_distribution_length s
        rw [h0] at hl
        exact List.length_eq_zero.mp hl
      rw [hempty, h0]
      simp
    · rw [build_distribution_getD s (triCount s - 1) (by omega)]
      unfold totalWeightedArea
      rw [Nat.sub_add_cancel hpos]

theorem claim_C6_witness :
    (∀ w, sampleStateA.weightAttribute = some w → ∀ j, 0 ≤ w.getD j 0) ∧
    ((∀ i, i + 1 < (build sampleStateA).distribution.length →
        (build sampleStateA).distribution.getD i 0 ≤
          (build sampleStateA).distribution.getD (i + 1) 0) ∧
      (build sampleStateA).distribution.getD
          ((build sampleStateA).distribution.length - 1) 0 =
        totalWeightedArea sampleStateA) :=
  ⟨fun w h => by simp [sampleStateA] at h,
   claim_C6_distribution_monotone sampleStateA (fun w h => by simp [sampleStateA] at h)⟩

/-- Claim C7: after build, any sequence of sample calls leaves the
distribution array and the mesh attribute data unchanged: sample only
writes the caller-supplied targets (and the module scratch globals) and
consumes draws. -/
theorem claim_C7_sample_frame (s : SamplerState) (ds : List (ℝ × ℝ × ℝ)) :
    (sampleMany (build s) ds).1.distribution = (build s).distribution ∧
    (sampleMany (build s) ds).1.positionAttribute = (build s).positionAttribute ∧
    (sampleMany (build s) ds).1.colorAttribute = (build s).colorAttribute ∧
    (sampleMany (build s) ds).1.weightAttribute = (build s).weightAttribute := by
  have h := sampleMany_preserves ds (build s)
  exact ⟨h.2.2.2, h.1, h.2.1, h.2.2.1⟩

/-- Concrete degenerate mesh: one triangle with all three vertices at the
origin, hence zero area and zero total weight. -/
noncomputable def degenerateSampler : SamplerState :=
  { positionAttribute := [⟨0, 0, 0⟩, ⟨0, 0, 0⟩, ⟨0, 0, 0⟩]
    colorAttribute := none
    weightAttribute := none
    distribution := []
    scratchFace := ⟨0, 0, 0⟩
    scratchColor := ⟨0, 0, 0⟩
    scratchColorInterpolant := 0 }

theorem degenerate_area : (faceVerts degenerateSampler 0).getArea = 0 := by
  norm_num [faceVerts, degenerateSampler, Tri.getArea, Vec3.length, Vec3.lengthSq,
    Vec3.cross, List.getD, Real.sqrt_zero]

/-- Claim C4 (counterexample): on the degenerate mesh neither build nor
the first sample fails: build stores the distribution [0] and sample
returns a well-defined record whose position and normal are the zero
vector — the code has no DegenerateInput error path and produces no NaN
(position interpolation divides by nothing; the zero-length normal is
guarded to the zero vector). -/
theorem claim_C4_counterexample :
    (build degenerateSampler).distribution = [0] ∧
    (sample (build degenerateSampler) 0 0 0).2.position = ⟨0, 0, 0⟩ ∧
    (sample (build degenerateSampler) 0 0 0).2.normal = ⟨0, 0, 0⟩ := by
  have ht : triCount degenerateSampler = 1 := by decide
  have hfw : faceWeightAt degenerateSampler 0 = 0 := by
    unfold faceWeightAt
    rw [degenerate_area, mul_zero]
  have hdist : (build degenerateSampler).distribution = [0] := by
    show cumsum (faceWeights degenerateSampler) = [0]
    rw [faceWeights, ht]
    simp [List.range_succ, hfw, cumsum, cumsumGo]
  have hfv : faceVerts (build degenerateSampler) 0 = ⟨⟨0, 0, 0⟩, ⟨0, 0, 0⟩, ⟨0, 0, 0⟩⟩ := by
    simp [faceVerts, degenerateSampler, List.getD]
  have hfi : binarySearch (build degenerateSampler).distribution
      ((0 : ℝ) * (build degenerateSampler).distribution.getD
        ((build degenerateSampler).distribution.length - 1) 0) = 0 := by
    rw [hdist]
    norm_num [binarySearch, bsAux]
  have hstep : sample (build degenerateSampler) 0 0 0 =
      sampleFace (build degenerateSampler) 0 0 0 := by
    simp only [sample]
    rw [hfi]
  have hnormal : (sampleFace (build degenerateSampler) 0 0 0).2.normal =
      (faceVerts (build degenerateSampler) 0).getNormal := rfl
  refine ⟨hdist, ?_, ?_⟩
  · rw [hstep, sampleFace_position, hfv]
    ext <;> norm_num [foldUV]
  · rw [hstep, hnormal, hfv]
    norm_num [Tri.getNormal, Vec3.cross, Vec3.lengthSq]
    rfl

/-- Claim C4 (amended): on a mesh whose face weights are all zero (every
triangle has zero area or zero weight, so the total weight is zero),
build() succeeds and stores an all-zero cumulative distribution, and
sample() returns normally instead of failing: the returned position is a
convex combination of the selected triangle's vertices, with no NaN and
no DegenerateInput error — no such error path exists in the code. -/
theorem claim_C4_amended (s : SamplerState) (r u v : ℝ)
    (hzero : ∀ i < triCount s, faceWeightAt s i = 0)
    (hu0 : 0 ≤ u) (hu1 : u < 1) (hv0 : 0 ≤ v) (hv1 : v < 1) :
    (∀ i, (build s).distribution.getD i 0 = 0) ∧
    ∃ α β γ : ℝ, 0 ≤ α ∧ 0 ≤ β ∧ 0 ≤ γ ∧ α + β + γ = 1 ∧
      (sample (build s) r u v).2.position =
        α • (faceVerts (build s) (binarySearch (build s).distribution
              (r * (build s).distribution.getD
                ((build s).distribution.length - 1) 0))).a +
        β • (faceVerts (build s) (binarySearch (build s).distribution
              (r * (build s).distribution.getD
                ((build s).distribution.length - 1) 0))).b +
        γ • (faceVerts (build s) (binarySearch (build s).distribution
              (r * (build s).distribution.getD
                ((build s).distribution.length - 1) 0))).c := by
  constructor
  · intro i
    rcases lt_or_le i (triCount s) with hi | hi
    · rw [build_distribution_getD s i hi]
      exact Finset.sum_eq_zero fun j hj =>
        hzero j (by have := Finset.mem_range.mp hj; omega)
    · rw [List.getD_eq_default]
      rw [build_distribution_length]
      exact hi
  · obtain ⟨h1, h2, h3⟩ := foldUV_bounds hu0 hu1 hv0 hv1
    refine ⟨(foldUV u v).1, (foldUV u v).2, 1 - ((foldUV u v).1 + (foldUV u v).2),
      h1, h2, by linarith, by ring, ?_⟩
    exact sampleFace_position (build s)
      (binarySearch (build s).distribution
        (r * (build s).distribution.getD ((build s).distribution.length - 1) 0)) u v

/-- Concrete mesh with one triangle whose three vertex weights are all
zero, so the total weighted area is zero. -/
noncomputable def zeroWeightSampler : SamplerState :=
  { positionAttribute := [⟨0, 0, 0⟩, ⟨1, 0, 0⟩, ⟨0, 1, 0⟩]
    colorAttribute := none
    weightAttribute := some [0, 0, 0]
    distribution := []
    scratchFace := ⟨0, 0, 0⟩
    scratchColor := ⟨0, 0, 0⟩
    scratchColorInterpolant := 0 }

theorem zeroWeight_faceWeights : ∀ i < triCount zeroWeightSampler,
    faceWeightAt zeroWeightSampler i = 0 := by
  have ht : triCount zeroWeightSampler = 1 := by decide
  intro i hi
  rw [ht] at hi
  have h0 : i = 0 := by omega
  subst h0
  simp [faceWeightAt, zeroWeightSampler, List.getD]

theorem claim_C4_witness :
    ((∀ i < triCount zeroWeightSampler, faceWeightAt zeroWeightSampler i = 0) ∧
      (0:ℝ) ≤ 0 ∧ (0:ℝ) < 1) ∧
    ((∀ i, (build zeroWeightSampler).distribution.getD i 0 = 0) ∧
      ∃ α β γ : ℝ, 0 ≤ α ∧ 0 ≤ β ∧ 0 ≤ γ ∧ α + β + γ = 1 ∧
        (sample (build zeroWeightSampler) 0 0 0).2.position =
          α • (faceVerts (build zeroWeightSampler)
                (binarySearch (build zeroWeightSampler).distribution
                  (0 * (build zeroWeightSampler).distribution.getD
                    ((build zeroWeightSampler).distribution.length - 1) 0))).a +
          β • (faceVerts (build zeroWeightSampler)
                (binarySearch (build zeroWeightSampler).distribution
                  (0 * (build zeroWeightSampler).distribution.getD
                    ((build zeroWeightSampler).distribution.length - 1) 0))).b +
          γ • (faceVerts (build zeroWeightSampler)
                (binarySearch (build zeroWeightSampler).distribution
                  (0 * (build zeroWeightSampler).distribution.getD
                    ((build zeroWeightSampler).distribution.length - 1) 0))).c) :=
  ⟨⟨zeroWeight_faceWeights, le_refl 0, zero_lt_one⟩,
   claim_C4_amended zeroWeightSampler 0 0 0 zeroWeight_faceWeights
     (le_refl 0) zero_lt_one (le_refl 0) zero_lt_one⟩

/-- Success test on an Except value. -/
def isOk {ε α : Type*} : Except ε α → Bool
  | Except.ok _ => true
  | Except.error _ => false

/-- Concrete indexed mesh: a BufferGeometry with itemSize 3 whose
triangle is described through an index. -/
noncomputable def indexedGeometry : BufferGeometry :=
  { isBufferGeometry := true
    itemSize := 3
    index := some [0, 1, 2]
    position := [⟨0, 0, 0⟩, ⟨1, 0, 0⟩, ⟨0, 1, 0⟩]
    color := none }

/-- Claim C5 (counterexample): the indexed mesh is not rejected:
construction succeeds (after the console warning) and yields a usable
sampler over the expanded flat triangle list. -/
theorem claim_C5_counterexample :
    indexedGeometry.index = some [0, 1, 2] ∧
    isOk (construct indexedGeometry) = true ∧
    construct indexedGeometry = Except.ok (initialSampler indexedGeometry.toNonIndexed) ∧
    (initialSampler indexedGeometry.toNonIndexed).positionAttribute =
      [⟨0, 0, 0⟩, ⟨1, 0, 0⟩, ⟨0, 1, 0⟩] :=
  ⟨rfl, rfl, rfl, rfl⟩

/-- Claim C5 (amended): construction fails — with the message
"MeshSurfaceSampler: Requires BufferGeometry triangle mesh." — exactly
when the input is not a BufferGeometry with itemSize-3 positions; when it
is one, construction succeeds even for an indexed mesh, which is
converted to the non-indexed flat form instead of being rejected. -/
theorem claim_C5_amended (g : BufferGeometry) :
    isOk (construct g) = (g.isBufferGeometry && g.itemSize == 3) ∧
    ((g.isBufferGeometry && g.itemSize == 3) = true →
      construct g = Except.ok (initialSampler
        (match g.index with
         | some _ => g.toNonIndexed
         | none => g))) := by
  unfold construct
  cases hb : g.isBufferGeometry with
  | false => simp [isOk]
  | true =>
    by_cases h3 : g.itemSize = 3
    · simp [isOk, h3]
    · simp [isOk, h3]

theorem claim_C5_amended_witness :
    (isOk (construct indexedGeometry) =
      (indexedGeometry.isBufferGeometry && indexedGeometry.itemSize == 3)) ∧
    ((indexedGeometry.isBufferGeometry && indexedGeometry.itemSize == 3) = true) ∧
    construct indexedGeometry =
      Except.ok (initialSampler indexedGeometry.toNonIndexed) :=
  ⟨(claim_C5_amended indexedGeometry).1, rfl,
   (claim_C5_amended indexedGeometry).2 rfl⟩

/-- Claim C9: the accept/reject loop of the visual layer always
terminates: starting from an attempt counter not above the bound it makes
at most maxAttempts = particleCount * 5 iterations (the counter is
incremented on every iteration and the final counter never exceeds
maxAttempts), it stops immediately once the target count of accepted
samples is reached, and when it finishes with fewer than the requested
samples the attempt bound was exhausted and the warning predicate fires,
after which the caller proceeds with the shorter list. -/
theorem claim_C9_loop (rand : ℕ → ℝ × ℝ × ℝ × ℝ × ℝ × ℝ) (s : SamplerState)
    (targetPositions : List ℝ) (attempts : ℕ) (h0 : attempts ≤ maxAttempts) :
    maxAttempts = particleCount * 5 ∧
    attempts ≤ (samplingLoop rand s targetPositions attempts).2.2 ∧
    (samplingLoop rand s targetPositions attempts).2.2 ≤ maxAttempts ∧
    (particleCount ≤ targetPositions.length / 3 →
      samplingLoop rand s targetPositions attempts = (s, targetPositions, attempts)) ∧
    ((samplingLoop rand s targetPositions attempts).2.1.length / 3 < particleCount →
      (samplingLoop rand s targetPositions attempts).2.2 = maxAttempts ∧
      warnFewer (samplingLoop rand s targetPositions attempts).2.1 = true) := by
  rw [samplingLoop]
  split
  next h =>
    have ih := claim_C9_loop rand
      (sample s (rand attempts).1 (rand attempts).2.1 (rand attempts).2.2.1).1
      (loopPush (rand attempts)
        (sample s (rand attempts).1 (rand attempts).2.1 (rand attempts).2.2.1).2
        targetPositions)
      (attempts + 1) (by omega)
    refine ⟨rfl, by omega, ih.2.2.1, ?_, ih.2.2.2.2⟩
    intro hge
    exact absurd h.1 (by omega)
  next h =>
    refine ⟨rfl, le_refl _, h0, fun _ => rfl, ?_⟩
    intro hlt
    dsimp only at hlt ⊢
    refine ⟨by omega, ?_⟩
    simp [warnFewer, hlt]
termination_by maxAttempts - attempts
decreasing_by omega

/-- Constant draw stream used to instantiate the loop theorem. -/
noncomputable def constRand : ℕ → ℝ × ℝ × ℝ × ℝ × ℝ × ℝ := fun _ => (0, 0, 0, 0, 0, 0)

theorem claim_C9_witness :
    0 ≤ maxAttempts ∧
    (maxAttempts = particleCount * 5 ∧
     0 ≤ (samplingLoop constRand degenerateSampler [] 0).2.2 ∧
     (samplingLoop constRand degenerateSampler [] 0).2.2 ≤ maxAttempts ∧
     (particleCount ≤ List.length ([] : List ℝ) / 3 →
       samplingLoop constRand degenerateSampler [] 0 = (degenerateSampler, [], 0)) ∧
     ((samplingLoop constRand degenerateSampler [] 0).2.1.length / 3 < particleCount →
       (samplingLoop constRand degenerateSampler [] 0).2.2 = maxAttempts ∧
       warnFewer (samplingLoop constRand degenerateSampler [] 0).2.1 = true)) :=
  ⟨Nat.zero_le _, claim_C9_loop constRand degenerateSampler [] 0 (Nat.zero_le _)⟩

end Particles
